import Mathlib

/-!
# Verification of the content-approval workflow core

A shallow embedding of the workflow/audit state machine, the workflow-step
materializer, the status-derivation routine, the ticket-id generator
(`app/models.py`), and the business-hours deadline scheduler, together with
theorems settling the specification's claims about them.

Statuses are modelled as the `String` tags the source stores in the database.
Instants are modelled as a calendar date together with a time-of-day in
minutes; `datetime.utcnow()` becomes an explicit `now` argument.
Database sessions become explicit state (`SysState`); a raised `ValueError`
becomes `Except.error`.
-/

namespace ContentApproval

/-- A calendar date (proleptic Gregorian), as Python's `datetime.date`. -/
structure Date where
  year : Nat
  month : Nat
  day : Nat
deriving DecidableEq, Repr

/-- Durations and clock times are modelled in whole minutes.  The source
stores times of day (`datetime.time`) and float TAT budgets in hours; whole
minutes represent every configured value (HH:MM windows, budgets such as
24.0h, 12.5h) exactly while keeping all arithmetic kernel-computable. -/
abbrev Minutes := Int

/-- An instant: a date plus a time-of-day in minutes since midnight
(so 570 is 09:30).  Embeds Python's `datetime` values. -/
structure Instant where
  date : Date
  tod : Minutes
deriving DecidableEq, Repr

/-- `Task.STATES` from `models.py`: the fixed seven-value status enumeration. -/
def STATES : List String :=
  ["assigned", "in_progress", "completed", "under_audit",
   "audit_passed", "audit_failed", "cancelled"]

/-- `Task.TRANSITIONS` from `models.py`: the valid state-transition table. -/
def TRANSITIONS : List (String × List String) :=
  [("assigned", ["in_progress", "cancelled"]),
   ("in_progress", ["completed", "cancelled"]),
   ("completed", ["under_audit", "cancelled"]),
   ("under_audit", ["audit_passed", "audit_failed", "cancelled"]),
   ("audit_failed", ["in_progress", "cancelled"]),
   ("audit_passed", []),
   ("cancelled", [])]

/-- `self.TRANSITIONS.get(self.status, [])`: allowed targets for a status,
empty for a status outside the table. -/
def transitionsFor (st : String) : List String :=
  ((TRANSITIONS.find? (fun p => p.1 == st)).map (fun p => p.2)).getD []

/-- The `Task` row: the fields the core reads or writes
(`models.py`, class `Task`). -/
structure Task where
  id : Nat
  ticket_id : String
  created_by_id : Nat
  assigned_to_id : Option Nat
  auditor_id : Option Nat
  plan_date : Option Date
  completed_date : Option Instant
  audit_date : Option Instant
  revision_count : Nat
  audit_notes : Option String
  status : String
  created_at : Instant
  updated_at : Instant
deriving DecidableEq, Repr

/-- A `TaskLog` row: the audit-trail entry created by every transition. -/
structure TaskLog where
  task_id : Nat
  user_id : Nat
  action : String
  field_name : Option String
  previous_value : Option String
  new_value : Option String
  previous_status : Option String
  new_status : Option String
  notes : Option String
  timestamp : Instant
deriving DecidableEq, Repr

/-- `Task.can_transition_to`: membership of the target in the allowed set. -/
def can_transition_to (t : Task) (new_status : String) : Bool :=
  (transitionsFor t.status).contains new_status

/-- Python's `s.replace('_', ' ').title()` applied to a status tag:
underscores become spaces and each alphabetic run is capitalized. -/
def titleAux : Bool → List Char → List Char
  | _, [] => []
  | prevAlpha, c :: rest =>
    (if c.isAlpha then (if prevAlpha then c.toLower else c.toUpper) else c)
      :: titleAux c.isAlpha rest

/-- Status tag rendered for the log's `previous_value`/`new_value` fields. -/
def statusLabel (s : String) : String :=
  ⟨titleAux false (s.data.map (fun c => if c = '_' then ' ' else c))⟩

/-- The log record built by `Task.transition_to`. -/
def transLog (t : Task) (new_status : String) (uid : Nat)
    (notes : Option String) (now : Instant) : TaskLog :=
  { task_id := t.id
    user_id := uid
    action := "Changed status from " ++ t.status ++ " to " ++ new_status
    field_name := some "status"
    previous_value := some (statusLabel t.status)
    new_value := some (statusLabel new_status)
    previous_status := some t.status
    new_status := some new_status
    notes := notes
    timestamp := now }

/-- `Task.auto_assign_auditor`: assign the creator as auditor
(`if self.created_by_id:` — falsy only for id 0). -/
def auto_assign_auditor (t : Task) : Task :=
  if t.created_by_id ≠ 0 then { t with auditor_id := some t.created_by_id } else t

/-- The task after a successful `transition_to` body: status set, `updated_at`
stamped, auditor auto-assigned on `under_audit` when unset, and the
status-specific date/revision side effects applied. -/
def applyTransition (t : Task) (new_status : String) (notes : Option String)
    (now : Instant) : Task :=
  let t1 : Task := { t with status := new_status, updated_at := now }
  let t2 : Task :=
    if new_status == "under_audit" && (t1.auditor_id.getD 0 == 0) then
      auto_assign_auditor t1
    else t1
  if new_status == "completed" then { t2 with completed_date := some now }
  else if new_status == "under_audit" then t2
  else if new_status == "audit_passed" then { t2 with audit_date := some now }
  else if new_status == "audit_failed" then
    { t2 with audit_date := some now
              revision_count := t2.revision_count + 1
              audit_notes := notes }
  else t2

/-- The `WorkflowStep` row: fields set by `generate_workflow_steps` plus the
lifecycle fields (`models.py`, class `WorkflowStep`). -/
structure WorkflowStep where
  task_id : Nat
  step_template_id : Option Nat
  step_name : String
  step_order : Nat
  tat_hours : Minutes
  assigned_to_id : Option Nat
  auditor_id : Option Nat
  planned_ptp : Option Instant
  planned_atp : Option Instant
  status : String
deriving DecidableEq, Repr

/-- The mutable world the core touches: the task row, its workflow steps and
the append-only audit trail (`db.session` contents for one task). -/
structure SysState where
  task : Task
  steps : List WorkflowStep
  logs : List TaskLog
deriving DecidableEq, Repr

/-- `Task.transition_to(new_status, user, notes)`: raises
`ValueError` (here `Except.error`) before any mutation when the edge is not in
the table; otherwise applies the side effects and appends exactly one log. -/
def transition_to (s : SysState) (new_status : String) (uid : Nat)
    (notes : Option String) (now : Instant) : Except String SysState :=
  if can_transition_to s.task new_status then
    Except.ok { s with
      task := applyTransition s.task new_status notes now
      logs := s.logs ++ [transLog s.task new_status uid notes now] }
  else
    Except.error ("Cannot transition from " ++ s.task.status ++ " to " ++ new_status)

/-- The step statuses `get_current_step` searches for: everything except
`audit_passed` (and the never-stored `cancelled`). -/
def ACTIVE_STEP_STATUSES : List String :=
  ["pending", "in_progress", "completed", "under_audit", "audit_failed"]

/-- First element by `step_order` (keeping the earlier element on ties, as a
stable `ORDER BY ... .first()` does). -/
def pickMinOrder (l : List WorkflowStep) : Option WorkflowStep :=
  l.foldl (fun acc st =>
    match acc with
    | none => some st
    | some a => if st.step_order < a.step_order then some st else some a) none

/-- `Task.get_current_step`: first step of the task (by `step_order`) whose
status is still in the active list. -/
def get_current_step (t : Task) (steps : List WorkflowStep) : Option WorkflowStep :=
  pickMinOrder (steps.filter (fun st =>
    st.task_id == t.id && ACTIVE_STEP_STATUSES.contains st.status))

/-- `Task.get_all_steps`: the task's steps. -/
def get_all_steps (t : Task) (steps : List WorkflowStep) : List WorkflowStep :=
  steps.filter (fun st => st.task_id == t.id)

/-- `Task.is_workflow_complete`: `False` when the task has no steps, else
whether every step has passed audit. -/
def is_workflow_complete (t : Task) (steps : List WorkflowStep) : Bool :=
  let l := get_all_steps t steps
  if l.isEmpty then false
  else l.all (fun st => st.status == "audit_passed")

/-- The step-status → task-status dictionary inside
`update_task_status_from_workflow`. -/
def STEP_TO_TASK_STATUS : List (String × String) :=
  [("pending", "assigned"),
   ("in_progress", "in_progress"),
   ("completed", "completed"),
   ("under_audit", "under_audit"),
   ("audit_failed", "audit_failed"),
   ("audit_passed", "in_progress")]

/-- `step_to_task_status.get(status, 'assigned')`. -/
def stepToTaskStatus (st : String) : String :=
  ((STEP_TO_TASK_STATUS.find? (fun p => p.1 == st)).map (fun p => p.2)).getD "assigned"

/-- `Task.update_task_status_from_workflow`: force `audit_passed` and stamp
both dates when the workflow is complete, otherwise map the current step's
status onto the task (writing only when it differs). -/
def update_task_status_from_workflow (t : Task) (steps : List WorkflowStep)
    (now : Instant) : Task :=
  if is_workflow_complete t steps then
    { t with status := "audit_passed"
             completed_date := some now
             audit_date := some now }
  else
    match get_current_step t steps with
    | some cs =>
      let mapped := stepToTaskStatus cs.status
      if t.status ≠ mapped then { t with status := mapped } else t
    | none => t

/-- The derivation lifted to the session state: it touches only the task row,
appending nothing to the audit trail. -/
def syncTaskStatus (s : SysState) (now : Instant) : SysState :=
  { s with task := update_task_status_from_workflow s.task s.steps now }

/-- Gregorian leap-year test. -/
def isLeap (y : Nat) : Bool :=
  (y % 4 == 0 && y % 100 != 0) || y % 400 == 0

/-- Days in a month of a given year. -/
def daysInMonth (y m : Nat) : Nat :=
  if m = 2 then (if isLeap y then 29 else 28)
  else if m = 4 ∨ m = 6 ∨ m = 9 ∨ m = 11 then 30
  else 31

/-- Days in the months of year `y` strictly before month `m`. -/
def daysBeforeMonth (y m : Nat) : Nat :=
  (List.range (m - 1)).foldl (fun acc i => acc + daysInMonth y (i + 1)) 0

/-- Day count of a date from the epoch 0001-01-01 (proleptic Gregorian). -/
def dayNumber (d : Date) : Nat :=
  365 * (d.year - 1) + (d.year - 1) / 4 - (d.year - 1) / 100 + (d.year - 1) / 400
    + daysBeforeMonth d.year d.month + (d.day - 1)

/-- Weekday with `0 = Monday, 6 = Sunday`, the convention of
`BusinessHours.day_of_week`; 0001-01-01 was a Monday. -/
def dayOfWeek (d : Date) : Fin 7 :=
  ⟨dayNumber d % 7, Nat.mod_lt _ (by omega)⟩

/-- The calendar day after `d`. -/
def nextDate (d : Date) : Date :=
  if d.day < daysInMonth d.year d.month then ⟨d.year, d.month, d.day + 1⟩
  else if d.month < 12 then ⟨d.year, d.month + 1, 1⟩
  else ⟨d.year + 1, 1, 1⟩

/-- One `BusinessHours` row: a weekday's working window, times in minutes
since midnight. -/
structure DayHours where
  start_time : Minutes
  end_time : Minutes
  is_working_day : Bool
deriving DecidableEq, Repr

/-- One `Holiday` row: a date, recurring yearly when flagged. -/
structure Holiday where
  date : Date
  is_recurring : Bool
deriving DecidableEq, Repr

/-- The calendar snapshot the scheduler reads: one window per weekday plus the
holiday set. -/
structure Calendar where
  hours : Fin 7 → DayHours
  holidays : List Holiday

/-- Modelled from the spec: holiday matching belongs to `BusinessCalendar`
in `app.utils`, absent from the source tree.  Per §4.1 a recurring holiday
compares month and day, a non-recurring one the full date. -/
def isHolidayDate (cal : Calendar) (d : Date) : Bool :=
  cal.holidays.any (fun h =>
    if h.is_recurring then h.date.month == d.month && h.date.day == d.day
    else h.date == d)

/-- Modelled from the spec: the date-level working test of §4.1 — the
weekday is a working day and the date is no holiday match. -/
def isWorkingDate (cal : Calendar) (d : Date) : Bool :=
  (cal.hours (dayOfWeek d)).is_working_day && !isHolidayDate cal d

/-- Modelled from the spec: `BusinessCalendar.isWorkingInstant` lives in
`app.utils`, which is absent from the source tree.  Per §4.1: the weekday has
`isWorkingDay = true`, the time-of-day falls within that weekday's window, and
the date is no holiday match. -/
def isWorkingInstant (cal : Calendar) (t : Instant) : Bool :=
  let w := cal.hours (dayOfWeek t.date)
  isWorkingDate cal t.date && decide (w.start_time ≤ t.tod) && decide (t.tod ≤ w.end_time)

/-- Modelled from the spec: the forward day-by-day scan of §4.1 for the next
working date, bounded by `fuel` (the lookahead ceiling; `none` is
`CalendarExhausted`). -/
def nextWorkingDate (cal : Calendar) (d : Date) : Nat → Option Date
  | 0 => none
  | fuel + 1 =>
    if isWorkingDate cal d then some d
    else nextWorkingDate cal (nextDate d) fuel

/-- Modelled from the spec: the instant at which date `d`'s working window
opens (§4.1). -/
def windowOpen (cal : Calendar) (d : Date) : Instant :=
  ⟨d, (cal.hours (dayOfWeek d)).start_time⟩

/-- Modelled from the spec: `BusinessCalendar.nextWindowStart` lives in
`app.utils`, absent from the source tree.  Per §4.1: `t` itself when already
inside a working window, else the start of the earliest subsequent working
window, scanning forward day by day up to the `fuel` ceiling. -/
def nextWindowStart (cal : Calendar) (t : Instant) (fuel : Nat) : Option Instant :=
  if isWorkingInstant cal t then some t
  else if isWorkingDate cal t.date
       && decide (t.tod ≤ (cal.hours (dayOfWeek t.date)).start_time) then
    some (windowOpen cal t.date)
  else
    (nextWorkingDate cal (nextDate t.date) fuel).map (windowOpen cal)

/-- Modelled from the spec: the window-consuming loop of `planDeadline`
(§4.2) — return `cursor + budget` when the budget fits in the current
window's remainder, else consume the remainder and restart from the next
working window. -/
def planDeadlineLoop (cal : Calendar) : Instant → Minutes → Nat → Option Instant
  | _, _, 0 => none
  | cursor, budget, fuel + 1 =>
    let w := cal.hours (dayOfWeek cursor.date)
    let remaining := w.end_time - cursor.tod
    if budget ≤ remaining then some ⟨cursor.date, cursor.tod + budget⟩
    else
      match nextWorkingDate cal (nextDate cursor.date) fuel with
      | none => none
      | some d => planDeadlineLoop cal (windowOpen cal d) (budget - remaining) fuel

/-- Modelled from the spec: `TATScheduler.planDeadline` lives in `app.utils`,
absent from the source tree.  Per §4.2: consume `tatHours` of business hours
starting at `nextWindowStart start`; `none` is `CalendarExhausted`. -/
def planDeadline (cal : Calendar) (start : Instant) (tatHours : Minutes)
    (fuel : Nat) : Option Instant :=
  (nextWindowStart cal start fuel).bind
    (fun c => planDeadlineLoop cal c tatHours fuel)

/-- A `StepTemplate` row. -/
structure StepTemplate where
  id : Nat
  name : String
  step_order : Nat
  tat_hours : Minutes
  requires_audit : Bool
  is_active : Bool
deriving DecidableEq, Repr

/-- Modelled from the spec: `calculate_planned_ptp` lives in `app.utils`,
absent from the source tree.  Per §4.5 it is plan-to-plan propagation: the
deadline is scheduled from the previous step's planned date when one exists,
else from the task's start date; the signature mirrors the call site in
`generate_workflow_steps`. -/
def calculate_planned_ptp (cal : Calendar) (fuel : Nat)
    (task_start_date : Instant) (step_order : Nat)
    (previous_step_planned : Option Instant) (tat_hours : Minutes) : Option Instant :=
  match previous_step_planned, step_order with
  | some p, _ => planDeadline cal p tat_hours fuel
  | none, _ => planDeadline cal task_start_date tat_hours fuel

/-- The per-step assignment the caller passes
(`{'assigned_to_id': ..., 'auditor_id': ...}`). -/
structure StepAssignment where
  assigned_to_id : Option Nat
  auditor_id : Option Nat
deriving DecidableEq, Repr

/-- Stable insertion into a list sorted by `step_order`. -/
def insertByOrder (t : StepTemplate) : List StepTemplate → List StepTemplate
  | [] => [t]
  | x :: xs =>
    if t.step_order < x.step_order then t :: x :: xs
    else x :: insertByOrder t xs

/-- Stable sort by `step_order` (an `ORDER BY step_order`). -/
def sortByOrder (l : List StepTemplate) : List StepTemplate :=
  l.foldr insertByOrder []

/-- `StepTemplate.query.filter_by(is_active=True).order_by(step_order)`:
the active templates in ascending `step_order`. -/
def activeTemplates (templates : List StepTemplate) : List StepTemplate :=
  sortByOrder (templates.filter (fun t => t.is_active))

/-- The loop body of `generate_workflow_steps`, threading
`previous_step_planned` through the template list. -/
def genStepsAux (cal : Calendar) (fuel : Nat) (task : Task)
    (assign : Nat → Option StepAssignment) :
    List StepTemplate → Option Instant → List WorkflowStep
  | [], _ => []
  | t :: rest, prev =>
    let a := (assign t.step_order).getD ⟨none, none⟩
    let ptp := calculate_planned_ptp cal fuel task.created_at t.step_order prev t.tat_hours
    { task_id := task.id
      step_template_id := some t.id
      step_name := t.name
      step_order := t.step_order
      tat_hours := t.tat_hours
      assigned_to_id := a.assigned_to_id
      auditor_id := a.auditor_id
      planned_ptp := ptp
      planned_atp := none
      status := "pending" } :: genStepsAux cal fuel task assign rest ptp

/-- `Task.generate_workflow_steps`: materialize one `pending` step per active
template, propagating `planned_ptp`; returns `[]` (without error) when no
template is active. -/
def generate_workflow_steps (cal : Calendar) (fuel : Nat) (task : Task)
    (templates : List StepTemplate)
    (assign : Nat → Option StepAssignment) : List WorkflowStep :=
  let tmpls := activeTemplates templates
  if tmpls.isEmpty then []
  else genStepsAux cal fuel task assign tmpls none

/-- Materialization lifted to the session state: the created steps join the
store (`db.session.add` per step). -/
def materializeSteps (s : SysState) (cal : Calendar) (fuel : Nat)
    (templates : List StepTemplate)
    (assign : Nat → Option StepAssignment) : SysState :=
  { s with steps := s.steps ++ generate_workflow_steps cal fuel s.task templates assign }

/-- The decimal digit character for `n < 10`. -/
def digitChar (n : Nat) : Char :=
  Char.ofNat (48 + n)

/-- Fuelled decimal rendering of a natural number (most significant digit
first); fuel `n + 1` always suffices. -/
def natDigitsAux : Nat → Nat → List Char
  | 0, _ => []
  | fuel + 1, n =>
    if n < 10 then [digitChar n]
    else natDigitsAux fuel (n / 10) ++ [digitChar (n % 10)]

/-- Python's `str(n)` for a natural number. -/
def natDigits (n : Nat) : List Char :=
  natDigitsAux (n + 1) n

/-- Python's `s.zfill(w)`: left-pad with zeros to width `w`. -/
def zfill (w : Nat) (l : List Char) : List Char :=
  List.replicate (w - l.length) '0' ++ l

/-- `datetime.now().strftime('%Y%m%d')`. -/
def fmtYYYYMMDD (d : Date) : List Char :=
  zfill 4 (natDigits d.year) ++ zfill 2 (natDigits d.month) ++ zfill 2 (natDigits d.day)

/-- The day-scoped ticket prelude `TKT-{YYYYMMDD}-`. -/
def dayPfx (today : Date) : List Char :=
  "TKT-".data ++ fmtYYYYMMDD today ++ "-".data

/-- A candidate ticket id: the day prelude followed by the zero-padded
sequence (`f'\x7bprefix\x7d\x7bsequence_str\x7d'`). -/
def mkTicketId (p : List Char) (seq : Nat) : String :=
  ⟨p ++ zfill 3 (natDigits seq)⟩

/-- Character-list version of `LIKE 'p%'`. -/
def startsWithChars : List Char → List Char → Bool
  | [], _ => true
  | _, [] => false
  | a :: as, b :: bs => a == b && startsWithChars as bs

/-- Python's `s.split('-')`. -/
def splitDash : List Char → List (List Char)
  | [] => [[]]
  | c :: rest =>
    let r := splitDash rest
    if c = '-' then [] :: r
    else (c :: r.headD []) :: r.tail

/-- `s.split('-')[-1]`. -/
def lastDashComp (l : List Char) : List Char :=
  (splitDash l).getLastD []

/-- The numeric value of a decimal digit string. -/
def digitsVal (l : List Char) : Nat :=
  l.foldl (fun acc c => acc * 10 + (c.toNat - 48)) 0

/-- Python's `int(s)` on the sequence field: succeeds only on a non-empty
all-digit string (a failure takes the `except` branch of the source). -/
def parseSeq (l : List Char) : Option Nat :=
  if !l.isEmpty && l.all Char.isDigit then some (digitsVal l)
  else none

/-- `order_by(Task.ticket_id.desc()).first()` over a filtered list: the
lexicographically greatest element. -/
def maxString (l : List String) : Option String :=
  l.foldl (fun acc x =>
    match acc with
    | none => some x
    | some a => if a < x then some x else some a) none

/-- The `while Task.query.filter_by(ticket_id=...).first():` loop: bump the
sequence until the candidate id collides with no existing id.  The loop in the
source always terminates because the table is finite; the structural `fuel`
makes that explicit, and `existing.length + 1` attempts always suffice. -/
def bumpUntilFree (existing : List String) (p : List Char) (seq : Nat) :
    Nat → Nat
  | 0 => seq
  | fuel + 1 =>
    if existing.contains (mkTicketId p seq) then
      bumpUntilFree existing p (seq + 1) fuel
    else seq

/-- `Task.generate_ticket_id`, with today's date and the stored ticket ids
made explicit: scan the day's tickets for the lexicographically last one,
increment its parsed sequence (1 when absent or unparsable), then bump past
any collision. -/
def generate_ticket_id (today : Date) (existing : List String) : String :=
  let p := dayPfx today
  let dayTickets := existing.filter (fun s => startsWithChars p s.data)
  let next_sequence :=
    match maxString dayTickets with
    | some last =>
      match parseSeq (lastDashComp last.data) with
      | some n => n + 1
      | none => 1
    | none => 1
  mkTicketId p (bumpUntilFree existing p next_sequence (existing.length + 1))

/-- States of one task's world reachable through the core's operations: a
freshly created task (`create_task` stores `status='assigned'` with no steps),
task-level transitions that succeed, step materialization, and the
workflow-driven status derivation. -/
inductive Reachable : SysState → Prop where
  | init (t : Task) (h : t.status = "assigned") : Reachable ⟨t, [], []⟩
  | trans {s s1 : SysState} (new_status : String) (uid : Nat)
      (notes : Option String) (now : Instant) (hs : Reachable s)
      (h : transition_to s new_status uid notes now = Except.ok s1) : Reachable s1
  | sync {s : SysState} (now : Instant) (hs : Reachable s) :
      Reachable (syncTaskStatus s now)
  | materialize {s : SysState} (cal : Calendar) (fuel : Nat)
      (templates : List StepTemplate) (assign : Nat → Option StepAssignment)
      (hs : Reachable s) : Reachable (materializeSteps s cal fuel templates assign)

/-! ## Concrete fixtures used by witnesses and counterexamples -/

/-- A freshly created task (`create_task` stores `status='assigned'`). -/
def exTask : Task :=
  ⟨1, "TKT-20240902-001", 1, some 2, none, none, none, none, 0, none,
    "assigned", ⟨⟨2024, 9, 2⟩, 540⟩, ⟨⟨2024, 9, 2⟩, 540⟩⟩

/-- `exTask` with a given status. -/
def exTaskAt (st : String) : Task :=
  { exTask with status := st }

/-- A clock instant on the task's creation day. -/
def exNow : Instant :=
  ⟨⟨2024, 9, 2⟩, 600⟩

/-- A later clock instant. -/
def exLater : Instant :=
  ⟨⟨2024, 9, 2⟩, 660⟩

/-- The Monday-to-Friday 09:00–18:00 calendar of the spec's scenarios. -/
def exCal : Calendar :=
  { hours := fun d => if d.val ≤ 4 then ⟨540, 1080, true⟩ else ⟨0, 0, false⟩
    holidays := [] }

/-- A workflow step of `exTask` with a given order and status. -/
def exStep (ord : Nat) (st : String) : WorkflowStep :=
  ⟨1, some ord, "Step", ord, 1440, some 2, none, none, none, st⟩

/-- One active template used by the C2 counterexample trace. -/
def cexTmpl : StepTemplate :=
  ⟨1, "Draft", 1, 1440, true, true⟩

/-- The reachable state after materializing the single step. -/
def cexS1 : SysState :=
  materializeSteps ⟨exTask, [], []⟩ exCal 400 [cexTmpl] (fun _ => none)

/-- The reachable state after the valid edge `assigned → in_progress`. -/
def cexS2 : SysState :=
  { cexS1 with
    task := applyTransition cexS1.task "in_progress" none exNow
    logs := cexS1.logs ++ [transLog cexS1.task "in_progress" 1 none exNow] }

/-- The three active templates of the spec's Scenario C (TAT 24h/12h/48h). -/
def c8tmpls : List StepTemplate :=
  [⟨1, "A", 1, 1440, true, true⟩, ⟨2, "B", 2, 720, true, true⟩,
   ⟨3, "C", 3, 2880, true, true⟩]

/-! ## Facts about the transition table and `transition_to` -/

theorem mem_transitionsFor_STATES {st ns : String}
    (h : ns ∈ transitionsFor st) : ns ∈ STATES := by
  unfold transitionsFor at h
  cases hf : TRANSITIONS.find? (fun p => p.1 == st) with
  | none => rw [hf] at h; simp at h
  | some p =>
    rw [hf] at h
    simp only [Option.map_some', Option.getD_some] at h
    have hm := List.mem_of_find?_eq_some hf
    fin_cases hm <;> simp_all [STATES] <;> tauto

theorem audit_failed_only_from_under_audit {st : String}
    (h : "audit_failed" ∈ transitionsFor st) : st = "under_audit" := by
  unfold transitionsFor at h
  cases hf : TRANSITIONS.find? (fun p => p.1 == st) with
  | none => rw [hf] at h; simp at h
  | some p =>
    rw [hf] at h
    simp only [Option.map_some', Option.getD_some] at h
    have hm := List.mem_of_find?_eq_some hf
    have hk := List.find?_some hf
    fin_cases hm <;> simp_all

theorem can_transition_iff (t : Task) (ns : String) :
    can_transition_to t ns = true ↔ ns ∈ transitionsFor t.status := by
  simp [can_transition_to]

theorem applyTransition_status (t : Task) (ns : String) (notes : Option String)
    (now : Instant) : (applyTransition t ns notes now).status = ns := by
  by_cases h1 : (ns == "under_audit" && (t.auditor_id.getD 0 == 0)) = true <;>
  by_cases h2 : t.created_by_id ≠ 0 <;>
  by_cases h3 : (ns == "completed") = true <;>
  by_cases h4 : (ns == "under_audit") = true <;>
  by_cases h5 : (ns == "audit_passed") = true <;>
  by_cases h6 : (ns == "audit_failed") = true <;>
  simp [applyTransition, auto_assign_auditor, h1, h2, h3, h4, h5, h6, apply_ite]

theorem applyTransition_revision_count (t : Task) (ns : String)
    (notes : Option String) (now : Instant) :
    (applyTransition t ns notes now).revision_count =
      (if ns = "audit_failed" then t.revision_count + 1 else t.revision_count) := by
  by_cases h1 : (ns == "under_audit" && (t.auditor_id.getD 0 == 0)) = true <;>
  by_cases h2 : t.created_by_id ≠ 0 <;>
  by_cases h3 : (ns == "completed") = true <;>
  by_cases h4 : (ns == "under_audit") = true <;>
  by_cases h5 : (ns == "audit_passed") = true <;>
  by_cases h6 : (ns == "audit_failed") = true <;>
  simp [applyTransition, auto_assign_auditor, h1, h2, h3, h4, h5, h6, apply_ite] <;>
  simp_all

theorem applyTransition_audit_failed (t : Task) (notes : Option String)
    (now : Instant) :
    (applyTransition t "audit_failed" notes now).audit_notes = notes ∧
    (applyTransition t "audit_failed" notes now).audit_date = some now := by
  simp [applyTransition, auto_assign_auditor]

theorem transition_to_ok (s : SysState) (ns : String) (uid : Nat)
    (notes : Option String) (now : Instant)
    (h : can_transition_to s.task ns = true) :
    transition_to s ns uid notes now = Except.ok
      { task := applyTransition s.task ns notes now
        steps := s.steps
        logs := s.logs ++ [transLog s.task ns uid notes now] } := by
  simp [transition_to, h]

theorem transition_to_ok_inv {s : SysState} {ns : String} {uid : Nat}
    {notes : Option String} {now : Instant} {s1 : SysState}
    (h : transition_to s ns uid notes now = Except.ok s1) :
    can_transition_to s.task ns = true ∧
    s1 = { task := applyTransition s.task ns notes now
           steps := s.steps
           logs := s.logs ++ [transLog s.task ns uid notes now] } := by
  by_cases hc : can_transition_to s.task ns
  · refine ⟨hc, ?_⟩
    rw [transition_to_ok s ns uid notes now hc] at h
    exact (Except.ok.inj h).symm
  · simp [transition_to, hc] at h

/-- C1: for every task and every target status not allowed from the task's
current status by the transition table (in particular any target from the
terminal states `audit_passed` and `cancelled`), `transition_to` fails with
the invalid-transition `ValueError`.  The source checks the table before any
assignment, so the error outcome carries out no mutation at all: status,
`completed_date`, `audit_date`, `updated_at`, `revision_count` and the audit
trail are exactly as before the call. -/
theorem C1_invalid_transition_rejected (s : SysState) (ns : String) (uid : Nat)
    (notes : Option String) (now : Instant)
    (h : can_transition_to s.task ns = false) :
    transition_to s ns uid notes now =
      Except.error ("Cannot transition from " ++ s.task.status ++ " to " ++ ns) ∧
    ∀ s1 : SysState, transition_to s ns uid notes now ≠ Except.ok s1 := by
  have he : transition_to s ns uid notes now =
      Except.error ("Cannot transition from " ++ s.task.status ++ " to " ++ ns) := by
    simp [transition_to, h]
  exact ⟨he, fun s1 hok => by rw [he] at hok; exact Except.noConfusion hok⟩

/-- Witness for C1: a task already in the terminal state `audit_passed`
rejects the target `in_progress`. -/
theorem C1_witness :
    transition_to ⟨exTaskAt "audit_passed", [], []⟩ "in_progress" 1 none exNow =
      Except.error "Cannot transition from audit_passed to in_progress" :=
  (C1_invalid_transition_rejected ⟨exTaskAt "audit_passed", [], []⟩
    "in_progress" 1 none exNow (by decide)).1

/-- C3: every valid transition appends exactly one audit-trail entry, and that
entry records the field name `status`, the previous status and the new
status. -/
theorem C3_exactly_one_log (s : SysState) (ns : String) (uid : Nat)
    (notes : Option String) (now : Instant)
    (h : can_transition_to s.task ns = true) :
    ∃ s1, transition_to s ns uid notes now = Except.ok s1 ∧
      s1.logs = s.logs ++ [transLog s.task ns uid notes now] ∧
      s1.logs.length = s.logs.length + 1 ∧
      (transLog s.task ns uid notes now).field_name = some "status" ∧
      (transLog s.task ns uid notes now).previous_status = some s.task.status ∧
      (transLog s.task ns uid notes now).new_status = some ns := by
  refine ⟨_, transition_to_ok s ns uid notes now h, rfl, by simp, rfl, rfl, rfl⟩

/-- Witness for C3: the valid edge `assigned → in_progress` appends one
`status` entry. -/
theorem C3_witness :
    ∃ s1, transition_to ⟨exTask, [], []⟩ "in_progress" 1 none exNow = Except.ok s1 ∧
      s1.logs = [] ++ [transLog exTask "in_progress" 1 none exNow] ∧
      s1.logs.length = List.length ([] : List TaskLog) + 1 ∧
      (transLog exTask "in_progress" 1 none exNow).field_name = some "status" ∧
      (transLog exTask "in_progress" 1 none exNow).previous_status
        = some (exTask : Task).status ∧
      (transLog exTask "in_progress" 1 none exNow).new_status = some "in_progress" :=
  C3_exactly_one_log ⟨exTask, [], []⟩ "in_progress" 1 none exNow (by decide)

/-- C4: a successful transition into `audit_failed` (necessarily from
`under_audit`) increments `revision_count` by exactly 1, stores the notes as
the audit rejection reason and stamps the audit decision timestamp; every
other successful transition leaves `revision_count` unchanged, no successful
transition ever decreases it, and the workflow status derivation never touches
it. -/
theorem C4_revision_count (s : SysState) (ns : String) (uid : Nat)
    (notes : Option String) (now : Instant) (s1 : SysState) :
    (transition_to s "audit_failed" uid notes now = Except.ok s1 →
       s.task.status = "under_audit" ∧
       s1.task.revision_count = s.task.revision_count + 1 ∧
       s1.task.audit_notes = notes ∧
       s1.task.audit_date = some now) ∧
    (transition_to s ns uid notes now = Except.ok s1 → ns ≠ "audit_failed" →
       s1.task.revision_count = s.task.revision_count) ∧
    (transition_to s ns uid notes now = Except.ok s1 →
       s.task.revision_count ≤ s1.task.revision_count) ∧
    (syncTaskStatus s now).task.revision_count = s.task.revision_count ∧
    (∀ (cal : Calendar) (fuel : Nat) (templates : List StepTemplate)
       (assign : Nat → Option StepAssignment),
       (materializeSteps s cal fuel templates assign).task.revision_count
         = s.task.revision_count) := by
  refine ⟨?_, ?_, ?_, ?_, fun _ _ _ _ => rfl⟩
  · intro h
    obtain ⟨hc, rfl⟩ := transition_to_ok_inv h
    have hmem : "audit_failed" ∈ transitionsFor s.task.status :=
      (can_transition_iff _ _).mp hc
    refine ⟨audit_failed_only_from_under_audit hmem, ?_,
      (applyTransition_audit_failed _ _ _).1, (applyTransition_audit_failed _ _ _).2⟩
    rw [applyTransition_revision_count]; simp
  · intro h hne
    obtain ⟨hc, rfl⟩ := transition_to_ok_inv h
    rw [applyTransition_revision_count]; simp [hne]
  · intro h
    obtain ⟨hc, rfl⟩ := transition_to_ok_inv h
    rw [applyTransition_revision_count]; split <;> omega
  · show (update_task_status_from_workflow s.task s.steps now).revision_count = _
    simp only [update_task_status_from_workflow]
    repeat' split
    all_goals rfl

/-- Witness for C4: failing the audit of a task under audit bumps its
revision count from 0 to 1 and records the notes. -/
theorem C4_witness :
    (⟨exTaskAt "under_audit", [], []⟩ : SysState).task.status = "under_audit" ∧
    ({ task := applyTransition (exTaskAt "under_audit") "audit_failed"
                 (some "needs work") exNow
       steps := ([] : List WorkflowStep)
       logs := [transLog (exTaskAt "under_audit") "audit_failed" 1
                  (some "needs work") exNow] } : SysState).task.revision_count
      = (⟨exTaskAt "under_audit", [], []⟩ : SysState).task.revision_count + 1 ∧
    ({ task := applyTransition (exTaskAt "under_audit") "audit_failed"
                 (some "needs work") exNow
       steps := ([] : List WorkflowStep)
       logs := [transLog (exTaskAt "under_audit") "audit_failed" 1
                  (some "needs work") exNow] } : SysState).task.audit_notes
      = some "needs work" ∧
    ({ task := applyTransition (exTaskAt "under_audit") "audit_failed"
                 (some "needs work") exNow
       steps := ([] : List WorkflowStep)
       logs := [transLog (exTaskAt "under_audit") "audit_failed" 1
                  (some "needs work") exNow] } : SysState).task.audit_date
      = some exNow :=
  (C4_revision_count ⟨exTaskAt "under_audit", [], []⟩ "audit_failed" 1
    (some "needs work") exNow _).1 rfl

/-! ## C2: status enumeration and edge invariants -/

theorem stepToTaskStatus_mem_STATES (st : String) : stepToTaskStatus st ∈ STATES := by
  unfold stepToTaskStatus
  cases hf : STEP_TO_TASK_STATUS.find? (fun p => p.1 == st) with
  | none => simp [STATES]
  | some p =>
    simp only [Option.map_some', Option.getD_some]
    have hm := List.mem_of_find?_eq_some hf
    fin_cases hm <;> simp [STATES]

theorem update_status_cases (t : Task) (steps : List WorkflowStep) (now : Instant) :
    (update_task_status_from_workflow t steps now).status = t.status ∨
    (update_task_status_from_workflow t steps now).status ∈ STATES := by
  simp only [update_task_status_from_workflow]
  split
  · right; simp [STATES]
  · split
    · split
      · right
        show stepToTaskStatus _ ∈ STATES
        exact stepToTaskStatus_mem_STATES _
      · left; rfl
    · left; rfl

/-- C2 (amended): on every reachable state the task's status is a member of
the fixed seven-value enumeration, and every status change made by
`transition_to` follows an edge of the transition table.  The original
claim's stronger clause — that the status change made by the workflow status
derivation also always follows a table edge — is false; see the
counterexample. -/
theorem C2_status_enum_invariant :
    (∀ s, Reachable s → s.task.status ∈ STATES) ∧
    (∀ s ns uid notes now s1, transition_to s ns uid notes now = Except.ok s1 →
        ns ∈ transitionsFor s.task.status ∧ s1.task.status = ns) := by
  constructor
  · intro s hs
    induction hs with
    | init t h =>
      show t.status ∈ STATES
      rw [h]; simp [STATES]
    | trans ns uid notes now hs h ih =>
      obtain ⟨hc, rfl⟩ := transition_to_ok_inv h
      show (applyTransition _ ns _ _).status ∈ STATES
      rw [applyTransition_status]
      exact mem_transitionsFor_STATES ((can_transition_iff _ _).mp hc)
    | sync now hs ih =>
      rcases update_status_cases _ _ now with h | h
      · show (update_task_status_from_workflow _ _ _).status ∈ STATES
        rw [h]; exact ih
      · exact h
    | materialize cal fuel templates assign hs ih => exact ih
  · intro s ns uid notes now s1 h
    obtain ⟨hc, rfl⟩ := transition_to_ok_inv h
    exact ⟨(can_transition_iff _ _).mp hc, applyTransition_status _ _ _ _⟩

/-- Witness for C2: the status of a freshly created task is in the
enumeration. -/
theorem C2_witness : (⟨exTask, [], []⟩ : SysState).task.status ∈ STATES :=
  C2_status_enum_invariant.1 ⟨exTask, [], []⟩ (Reachable.init exTask rfl)

/-- Counterexample for C2: from the reachable state `cexS2` (task
`in_progress`, its only step still `pending`), the workflow status derivation
moves the status back to `assigned`, but `in_progress → assigned` is not an
edge of the transition table. -/
theorem C2_counterexample :
    Reachable cexS2 ∧
    cexS2.task.status = "in_progress" ∧
    (syncTaskStatus cexS2 exLater).task.status = "assigned" ∧
    "assigned" ∉ transitionsFor "in_progress" := by
  refine ⟨?_, by decide, by decide, by decide⟩
  exact Reachable.trans "in_progress" 1 none exNow
    (Reachable.materialize exCal 400 [cexTmpl] (fun _ => none)
      (Reachable.init exTask rfl))
    (by show transition_to cexS1 "in_progress" 1 none exNow = Except.ok cexS2
        rw [transition_to_ok cexS1 "in_progress" 1 none exNow (by decide)]
        rfl)

/-! ## C5 and C6: the workflow status derivation -/

theorem update_of_complete {t : Task} {steps : List WorkflowStep}
    (h : is_workflow_complete t steps = true) (now : Instant) :
    update_task_status_from_workflow t steps now =
      { t with status := "audit_passed"
               completed_date := some now
               audit_date := some now } := by
  simp only [update_task_status_from_workflow, h]
  rfl

theorem update_of_incomplete_some {t : Task} {steps : List WorkflowStep}
    {cs : WorkflowStep} (h : is_workflow_complete t steps = false)
    (hcs : get_current_step t steps = some cs) (now : Instant) :
    update_task_status_from_workflow t steps now =
      (if t.status ≠ stepToTaskStatus cs.status then
        { t with status := stepToTaskStatus cs.status } else t) := by
  simp only [update_task_status_from_workflow, h, hcs]
  rfl

theorem update_of_incomplete_none {t : Task} {steps : List WorkflowStep}
    (h : is_workflow_complete t steps = false)
    (hcs : get_current_step t steps = none) (now : Instant) :
    update_task_status_from_workflow t steps now = t := by
  simp only [update_task_status_from_workflow, h, hcs]
  rfl

theorem update_task_id (t : Task) (steps : List WorkflowStep) (now : Instant) :
    (update_task_status_from_workflow t steps now).id = t.id := by
  simp only [update_task_status_from_workflow]
  repeat' split
  all_goals rfl

theorem get_all_steps_congr {t1 t2 : Task} (h : t1.id = t2.id)
    (steps : List WorkflowStep) : get_all_steps t1 steps = get_all_steps t2 steps := by
  unfold get_all_steps
  rw [h]

theorem is_workflow_complete_congr {t1 t2 : Task} (h : t1.id = t2.id)
    (steps : List WorkflowStep) :
    is_workflow_complete t1 steps = is_workflow_complete t2 steps := by
  unfold is_workflow_complete
  rw [get_all_steps_congr h]

theorem get_current_step_congr {t1 t2 : Task} (h : t1.id = t2.id)
    (steps : List WorkflowStep) :
    get_current_step t1 steps = get_current_step t2 steps := by
  unfold get_current_step
  rw [h]

/-- C5 (amended): the derivation maps the current step's status onto the task
through the fixed dictionary, and forces `audit_passed` with both timestamps
stamped when the workflow is complete — but `is_workflow_complete` is the
claimed "all steps passed audit" only for a task that has at least one step:
with zero steps it is `False` even though "every step is audit_passed" holds
vacuously; see the counterexample. -/
theorem C5_sync_derivation (t : Task) (steps : List WorkflowStep) (now : Instant) :
    (is_workflow_complete t steps = true ↔
      (get_all_steps t steps ≠ [] ∧
        ∀ st ∈ get_all_steps t steps, st.status = "audit_passed")) ∧
    (is_workflow_complete t steps = true →
      (update_task_status_from_workflow t steps now).status = "audit_passed" ∧
      (update_task_status_from_workflow t steps now).completed_date = some now ∧
      (update_task_status_from_workflow t steps now).audit_date = some now) ∧
    (∀ cs, is_workflow_complete t steps = false →
      get_current_step t steps = some cs →
      (update_task_status_from_workflow t steps now).status
        = stepToTaskStatus cs.status) ∧
    (stepToTaskStatus "pending" = "assigned" ∧
     stepToTaskStatus "in_progress" = "in_progress" ∧
     stepToTaskStatus "completed" = "completed" ∧
     stepToTaskStatus "under_audit" = "under_audit" ∧
     stepToTaskStatus "audit_failed" = "audit_failed" ∧
     stepToTaskStatus "audit_passed" = "in_progress") := by
  refine ⟨?_, ?_, ?_, by decide⟩
  · simp only [is_workflow_complete]
    constructor
    · intro h
      split at h
      · exact absurd h (by simp)
      · next hne =>
        refine ⟨by simpa [List.isEmpty_iff] using hne, ?_⟩
        intro st hst
        have := List.all_eq_true.mp h st hst
        simpa using this
    · rintro ⟨hne, hall⟩
      rw [if_neg (by simpa [List.isEmpty_iff] using hne)]
      exact List.all_eq_true.mpr (fun st hst => by simpa using hall st hst)
  · intro h
    rw [update_of_complete h now]
    exact ⟨rfl, rfl, rfl⟩
  · intro cs h hcs
    rw [update_of_incomplete_some h hcs now]
    split
    · rfl
    · next hne => simpa using hne

/-- Witness for C5: a task whose single step has passed audit is forced to
`audit_passed` with both timestamps stamped. -/
theorem C5_witness :
    (update_task_status_from_workflow exTask [exStep 1 "audit_passed"] exNow).status
      = "audit_passed" ∧
    (update_task_status_from_workflow exTask [exStep 1 "audit_passed"] exNow).completed_date
      = some exNow ∧
    (update_task_status_from_workflow exTask [exStep 1 "audit_passed"] exNow).audit_date
      = some exNow :=
  (C5_sync_derivation exTask [exStep 1 "audit_passed"] exNow).2.1 (by decide)

/-- Counterexample for C5: for a task with zero workflow steps, "every step
has status audit_passed" holds vacuously, yet `is_workflow_complete` is false
and the derivation neither forces `audit_passed` nor stamps a timestamp. -/
theorem C5_counterexample :
    (∀ st ∈ get_all_steps exTask [], st.status = "audit_passed") ∧
    is_workflow_complete exTask [] = false ∧
    (update_task_status_from_workflow exTask [] exNow).status = "assigned" ∧
    (update_task_status_from_workflow exTask [] exNow).completed_date = none := by
  exact ⟨by simp [get_all_steps], by decide, by decide, by decide⟩

/-- The second run of the derivation, fully characterized: when the workflow
is complete it re-stamps both dates at the second call's clock; otherwise it
returns the first run's result unchanged. -/
theorem update_idem (t : Task) (steps : List WorkflowStep) (now1 now2 : Instant) :
    update_task_status_from_workflow
        (update_task_status_from_workflow t steps now1) steps now2 =
      (if is_workflow_complete t steps then
        { t with status := "audit_passed"
                 completed_date := some now2
                 audit_date := some now2 }
      else update_task_status_from_workflow t steps now1) := by
  have hid := update_task_id t steps now1
  by_cases hc : is_workflow_complete t steps
  · have hcu : is_workflow_complete
        (update_task_status_from_workflow t steps now1) steps = true := by
      rw [is_workflow_complete_congr hid]; exact hc
    rw [if_pos hc, update_of_complete hcu now2, update_of_complete hc now1]
  · have hc' : is_workflow_complete t steps = false := by
      simpa using hc
    have hcu : is_workflow_complete
        (update_task_status_from_workflow t steps now1) steps = false := by
      rw [is_workflow_complete_congr hid]; exact hc'
    rw [if_neg hc]
    cases hcs : get_current_step t steps with
    | none =>
      have hcsu : get_current_step
          (update_task_status_from_workflow t steps now1) steps = none := by
        rw [get_current_step_congr hid]; exact hcs
      rw [update_of_incomplete_none hcu hcsu now2]
    | some cs =>
      have hcsu : get_current_step
          (update_task_status_from_workflow t steps now1) steps = some cs := by
        rw [get_current_step_congr hid]; exact hcs
      rw [update_of_incomplete_some hcu hcsu now2,
          update_of_incomplete_some hc' hcs now1]
      by_cases hst : t.status = stepToTaskStatus cs.status
      · simp [hst]
      · simp [hst]

/-- C6 (amended): the derivation appends no audit-trail entry and leaves the
steps untouched; re-running it with no intervening step change returns an
identical task state whenever the workflow is not complete, and in every case
when the clock has not advanced.  When the workflow is complete, however, the
source re-stamps `completed_date`/`audit_date` at every call, so a second run
at a later clock differs in exactly those timestamps; see the
counterexample. -/
theorem C6_sync_idempotent (s : SysState) (now1 now2 : Instant) :
    (syncTaskStatus s now1).logs = s.logs ∧
    (syncTaskStatus s now1).steps = s.steps ∧
    syncTaskStatus (syncTaskStatus s now1) now1 = syncTaskStatus s now1 ∧
    (is_workflow_complete s.task s.steps = false →
      syncTaskStatus (syncTaskStatus s now1) now2 = syncTaskStatus s now1) := by
  refine ⟨rfl, rfl, ?_, ?_⟩
  · simp only [syncTaskStatus]
    rw [update_idem]
    split
    · next hc => rw [update_of_complete hc now1]
    · rfl
  · intro hc
    simp only [syncTaskStatus]
    rw [update_idem, if_neg (by simp [hc])]

/-- Witness for C6: for a task whose only step is still `pending` (workflow
not complete), running the derivation twice — even at a later clock — yields
the state of the first run. -/
theorem C6_witness :
    syncTaskStatus (syncTaskStatus ⟨exTask, [exStep 1 "pending"], []⟩ exNow) exLater
      = syncTaskStatus ⟨exTask, [exStep 1 "pending"], []⟩ exNow :=
  (C6_sync_idempotent ⟨exTask, [exStep 1 "pending"], []⟩ exNow exLater).2.2.2
    (by decide)

/-- Counterexample for C6: with a complete workflow (single `audit_passed`
step) and no intervening step change, a second run at a later clock produces a
different task state — the completion and audit timestamps are re-stamped. -/
theorem C6_counterexample :
    (syncTaskStatus ⟨exTask, [exStep 1 "audit_passed"], []⟩ exNow).steps
      = [exStep 1 "audit_passed"] ∧
    syncTaskStatus (syncTaskStatus ⟨exTask, [exStep 1 "audit_passed"], []⟩ exNow) exLater
      ≠ syncTaskStatus ⟨exTask, [exStep 1 "audit_passed"], []⟩ exNow ∧
    (syncTaskStatus (syncTaskStatus ⟨exTask, [exStep 1 "audit_passed"], []⟩ exNow)
        exLater).task.completed_date = some exLater ∧
    (syncTaskStatus ⟨exTask, [exStep 1 "audit_passed"], []⟩ exNow).task.completed_date
      = some exNow := by
  exact ⟨by decide, by decide, by decide, by decide⟩

/-! ## C7 and C8: step materialization -/

theorem insertByOrder_length (t : StepTemplate) (l : List StepTemplate) :
    (insertByOrder t l).length = l.length + 1 := by
  induction l with
  | nil => rfl
  | cons x xs ih =>
    unfold insertByOrder
    split
    · rfl
    · simp [ih]

theorem sortByOrder_length (l : List StepTemplate) :
    (sortByOrder l).length = l.length := by
  unfold sortByOrder
  induction l with
  | nil => rfl
  | cons x xs ih => simp [insertByOrder_length, ih]

theorem mem_insertByOrder {a t : StepTemplate} {l : List StepTemplate} :
    a ∈ insertByOrder t l ↔ a = t ∨ a ∈ l := by
  induction l with
  | nil => simp [insertByOrder]
  | cons x xs ih =>
    unfold insertByOrder
    split
    · simp
    · simp [ih]
      tauto

theorem mem_sortByOrder {a : StepTemplate} {l : List StepTemplate} :
    a ∈ sortByOrder l ↔ a ∈ l := by
  unfold sortByOrder
  induction l with
  | nil => simp
  | cons x xs ih => simp [mem_insertByOrder, ih]

theorem genStepsAux_length (cal : Calendar) (fuel : Nat) (task : Task)
    (assign : Nat → Option StepAssignment) (l : List StepTemplate) :
    ∀ prev, (genStepsAux cal fuel task assign l prev).length = l.length := by
  induction l with
  | nil => intro prev; rfl
  | cons t rest ih => intro prev; simp [genStepsAux, ih]

theorem genStepsAux_mem (cal : Calendar) (fuel : Nat) (task : Task)
    (assign : Nat → Option StepAssignment) (l : List StepTemplate) :
    ∀ prev st, st ∈ genStepsAux cal fuel task assign l prev →
      ∃ tp, tp ∈ l ∧ st.step_template_id = some tp.id ∧ st.status = "pending" := by
  induction l with
  | nil => intro prev st h; simp [genStepsAux] at h
  | cons t rest ih =>
    intro prev st h
    rw [genStepsAux, List.mem_cons] at h
    rcases h with rfl | h
    · exact ⟨t, List.mem_cons_self _ _, rfl, rfl⟩
    · obtain ⟨tp, htp, h1, h2⟩ := ih _ st h
      exact ⟨tp, List.mem_cons_of_mem _ htp, h1, h2⟩

/-- C7 (amended): materialization creates exactly one step per active
template — in particular it returns the empty list, without raising any
error, when no template is active — and templates marked inactive are
excluded: every created step comes from an active template.  The original
claim's `NoActiveTemplates` failure does not exist in the source, which
returns `[]` instead; see the counterexample. -/
theorem C7_materialization_active_only (cal : Calendar) (fuel : Nat)
    (task : Task) (templates : List StepTemplate)
    (assign : Nat → Option StepAssignment) :
    (generate_workflow_steps cal fuel task templates assign).length
      = (templates.filter (fun t => t.is_active)).length ∧
    (templates.filter (fun t => t.is_active) = [] →
      generate_workflow_steps cal fuel task templates assign = []) ∧
    (∀ st ∈ generate_workflow_steps cal fuel task templates assign,
      ∃ tp, tp ∈ templates ∧ tp.is_active = true ∧
        st.step_template_id = some tp.id ∧ st.status = "pending") := by
  refine ⟨?_, ?_, ?_⟩
  · simp only [generate_workflow_steps]
    split
    · next he =>
      rw [List.isEmpty_iff, activeTemplates] at he
      have hl := sortByOrder_length (templates.filter (fun t => t.is_active))
      rw [he] at hl
      simp [← hl]
    · rw [genStepsAux_length, activeTemplates, sortByOrder_length]
  · intro he
    simp only [generate_workflow_steps]
    rw [if_pos (by simp [activeTemplates, he, sortByOrder])]
  · intro st hst
    simp only [generate_workflow_steps] at hst
    split at hst
    · simp at hst
    · obtain ⟨tp, htp, h1, h2⟩ := genStepsAux_mem cal fuel task assign _ _ st hst
      rw [activeTemplates, mem_sortByOrder, List.mem_filter] at htp
      exact ⟨tp, htp.1, htp.2, h1, h2⟩

/-- Witness for C7: with one inactive and one active template, exactly one
step is materialized and it comes from the active template. -/
theorem C7_witness :
    (generate_workflow_steps exCal 400 exTask
        [⟨1, "A", 1, 1440, true, false⟩, ⟨2, "B", 2, 720, true, true⟩]
        (fun _ => none)).length
      = ([⟨1, "A", 1, 1440, true, false⟩,
          (⟨2, "B", 2, 720, true, true⟩ : StepTemplate)].filter
            (fun t => t.is_active)).length ∧
    ([(⟨1, "A", 1, 1440, true, false⟩ : StepTemplate)].filter
        (fun t => t.is_active) = [] →
      generate_workflow_steps exCal 400 exTask
        [⟨1, "A", 1, 1440, true, false⟩] (fun _ => none) = []) :=
  ⟨(C7_materialization_active_only exCal 400 exTask
      [⟨1, "A", 1, 1440, true, false⟩, ⟨2, "B", 2, 720, true, true⟩]
      (fun _ => none)).1,
   (C7_materialization_active_only exCal 400 exTask
      [⟨1, "A", 1, 1440, true, false⟩] (fun _ => none)).2.1⟩

/-- Counterexample for C7: materializing when every template is inactive (so
the active set is empty) returns the empty list through the normal return
path — the source's `generate_workflow_steps` has no error path at all
(`if not templates: return []`), so no `NoActiveTemplates` failure occurs. -/
theorem C7_counterexample :
    generate_workflow_steps exCal 400 exTask
      [⟨1, "A", 1, 1440, true, false⟩, ⟨2, "B", 2, 720, true, false⟩]
      (fun _ => none) = [] := by
  decide

theorem genStepsAux_head_ptp (cal : Calendar) (fuel : Nat) (task : Task)
    (assign : Nat → Option StepAssignment) (l : List StepTemplate)
    (prev : Option Instant) (st : WorkflowStep) (tp : StepTemplate)
    (h1 : (genStepsAux cal fuel task assign l prev)[0]? = some st)
    (h2 : l[0]? = some tp) :
    st.planned_ptp = calculate_planned_ptp cal fuel task.created_at
      tp.step_order prev tp.tat_hours := by
  cases l with
  | nil => simp at h2
  | cons t rest =>
    rw [genStepsAux] at h1
    simp at h1 h2
    subst h2
    rw [← h1]

theorem genStepsAux_consecutive (cal : Calendar) (fuel : Nat) (task : Task)
    (assign : Nat → Option StepAssignment) (l : List StepTemplate) :
    ∀ (prev : Option Instant) (i : Nat) (st st1 : WorkflowStep)
      (tp : StepTemplate),
      (genStepsAux cal fuel task assign l prev)[i]? = some st →
      (genStepsAux cal fuel task assign l prev)[i + 1]? = some st1 →
      l[i + 1]? = some tp →
      st1.planned_ptp = calculate_planned_ptp cal fuel task.created_at
        tp.step_order st.planned_ptp tp.tat_hours := by
  induction l with
  | nil =>
    intro prev i st st1 tp h1 _ _
    simp [genStepsAux] at h1
  | cons t rest ih =>
    intro prev i st st1 tp h1 h2 h3
    cases i with
    | zero =>
      rw [genStepsAux] at h1 h2
      simp at h1 h2 h3
      subst h1
      exact genStepsAux_head_ptp cal fuel task assign rest _ st1 tp h2 h3
    | succ n =>
      rw [genStepsAux] at h1 h2
      simp at h1 h2 h3
      exact ih _ n st st1 tp h1 h2 h3

/-- C8: materialization propagates `planned_ptp` forward — the first created
step's deadline is scheduled from the task's creation instant with the first
active template's TAT, and each later step's deadline is scheduled from the
previous step's `planned_ptp` with its own template's TAT.  The scheduler
itself is modelled from the spec, `app.utils` being absent from the source
tree. -/
theorem C8_ptp_propagation (cal : Calendar) (fuel : Nat) (task : Task)
    (templates : List StepTemplate) (assign : Nat → Option StepAssignment) :
    (∀ st tp,
      (generate_workflow_steps cal fuel task templates assign)[0]? = some st →
      (activeTemplates templates)[0]? = some tp →
      st.planned_ptp = planDeadline cal task.created_at tp.tat_hours fuel) ∧
    (∀ i st st1 tp,
      (generate_workflow_steps cal fuel task templates assign)[i]? = some st →
      (generate_workflow_steps cal fuel task templates assign)[i + 1]?
        = some st1 →
      (activeTemplates templates)[i + 1]? = some tp →
      ∀ p, st.planned_ptp = some p →
      st1.planned_ptp = planDeadline cal p tp.tat_hours fuel) := by
  constructor
  · intro st tp h1 h2
    simp only [generate_workflow_steps] at h1
    split at h1
    · simp at h1
    · exact genStepsAux_head_ptp cal fuel task assign _ none st tp h1 h2
  · intro i st st1 tp h1 h2 h3 p hp
    simp only [generate_workflow_steps] at h1 h2
    split at h1
    · simp at h1
    · split at h2
      · simp at h2
      · have := genStepsAux_consecutive cal fuel task assign _ none i st st1 tp h1 h2 h3
        rw [this, hp]
        rfl

/-- Witness for C8 (Scenario C): the second step of a Monday-09:00 task is
scheduled from the first step's planned instant (Wednesday 15:00) with its
12h TAT. -/
theorem C8_witness :
    (⟨1, some 2, "B", 2, 720, none, none, some ⟨⟨2024, 9, 5⟩, 1080⟩, none,
        "pending"⟩ : WorkflowStep).planned_ptp
      = planDeadline exCal ⟨⟨2024, 9, 4⟩, 900⟩ 720 400 :=
  (C8_ptp_propagation exCal 400 exTask c8tmpls (fun _ => none)).2 0
    ⟨1, some 1, "A", 1, 1440, none, none, some ⟨⟨2024, 9, 4⟩, 900⟩, none, "pending"⟩
    ⟨1, some 2, "B", 2, 720, none, none, some ⟨⟨2024, 9, 5⟩, 1080⟩, none, "pending"⟩
    ⟨2, "B", 2, 720, true, true⟩
    (by decide) (by decide) (by decide) ⟨⟨2024, 9, 4⟩, 900⟩ (by decide)

/-! ## C10: the scheduler's deadline always lands in a working window -/

theorem nextWorkingDate_isWorking {cal : Calendar} :
    ∀ (fuel : Nat) (d d1 : Date), nextWorkingDate cal d fuel = some d1 →
      isWorkingDate cal d1 = true := by
  intro fuel
  induction fuel with
  | zero => intro d d1 h; simp [nextWorkingDate] at h
  | succ f ih =>
    intro d d1 h
    rw [nextWorkingDate] at h
    split at h
    · next hw => cases h; exact hw
    · exact ih _ _ h

theorem windowOpen_working {cal : Calendar}
    (hv : ∀ i : Fin 7, (cal.hours i).is_working_day = true →
      (cal.hours i).start_time < (cal.hours i).end_time)
    {d : Date} (hw : isWorkingDate cal d = true) :
    isWorkingInstant cal (windowOpen cal d) = true := by
  have hwd : (cal.hours (dayOfWeek d)).is_working_day = true := by
    have hw' := hw
    unfold isWorkingDate at hw'
    simp only [Bool.and_eq_true] at hw'
    exact hw'.1
  have hlt := hv (dayOfWeek d) hwd
  unfold isWorkingInstant windowOpen
  simp [hw, le_of_lt hlt]

theorem nextWindowStart_working {cal : Calendar}
    (hv : ∀ i : Fin 7, (cal.hours i).is_working_day = true →
      (cal.hours i).start_time < (cal.hours i).end_time)
    {t c : Instant} {fuel : Nat}
    (h : nextWindowStart cal t fuel = some c) :
    isWorkingInstant cal c = true := by
  unfold nextWindowStart at h
  split at h
  · next hw => cases h; exact hw
  · split at h
    · next hcond =>
      cases h
      have hcond' := hcond
      simp only [Bool.and_eq_true] at hcond'
      exact windowOpen_working hv hcond'.1
    · cases hnw : nextWorkingDate cal (nextDate t.date) fuel with
      | none => rw [hnw] at h; simp at h
      | some d1 =>
        rw [hnw] at h
        simp at h
        rw [← h]
        exact windowOpen_working hv (nextWorkingDate_isWorking fuel _ d1 hnw)

theorem planDeadlineLoop_working {cal : Calendar}
    (hv : ∀ i : Fin 7, (cal.hours i).is_working_day = true →
      (cal.hours i).start_time < (cal.hours i).end_time) :
    ∀ (fuel : Nat) (cursor : Instant) (budget : Minutes) (d : Instant),
      isWorkingInstant cal cursor = true → 0 < budget →
      planDeadlineLoop cal cursor budget fuel = some d →
      isWorkingInstant cal d = true := by
  intro fuel
  induction fuel with
  | zero => intro cursor budget d _ _ h; simp [planDeadlineLoop] at h
  | succ f ih =>
    intro cursor budget d hcur hb h
    simp only [planDeadlineLoop] at h
    split at h
    · next hfits =>
      cases h
      unfold isWorkingInstant at hcur ⊢
      simp only [Bool.and_eq_true, decide_eq_true_eq] at hcur ⊢
      obtain ⟨⟨hwd, hge⟩, hle⟩ := hcur
      exact ⟨⟨hwd, by linarith⟩, by linarith⟩
    · next hnofit =>
      cases hnw : nextWorkingDate cal (nextDate cursor.date) f with
      | none => rw [hnw] at h; exact absurd h (by simp)
      | some d1 =>
        rw [hnw] at h
        refine ih _ _ d
          (windowOpen_working hv (nextWorkingDate_isWorking f _ d1 hnw)) ?_ h
        unfold isWorkingInstant at hcur
        simp only [Bool.and_eq_true, decide_eq_true_eq] at hcur
        obtain ⟨⟨hwd, hge⟩, hle⟩ := hcur
        push_neg at hnofit
        linarith

/-- C10: whenever the scheduler returns a deadline (it is `CalendarExhausted`
otherwise), that deadline is a working instant — inside the weekday's
configured window, on a working weekday, not on a holiday — for every start
instant, every positive TAT budget, and every calendar whose working windows
are nonempty (spec §3 data invariant `endTime > startTime`).  The scheduler is
modelled from the spec, `app.utils` being absent from the source tree. -/
theorem C10_deadline_is_working (cal : Calendar) (start : Instant)
    (tat : Minutes) (fuel : Nat) (d : Instant)
    (hv : ∀ i : Fin 7, (cal.hours i).is_working_day = true →
      (cal.hours i).start_time < (cal.hours i).end_time)
    (ht : 0 < tat)
    (h : planDeadline cal start tat fuel = some d) :
    isWorkingInstant cal d = true := by
  unfold planDeadline at h
  cases hnx : nextWindowStart cal start fuel with
  | none => rw [hnx] at h; exact absurd h (by simp)
  | some c =>
    rw [hnx] at h
    exact planDeadlineLoop_working hv fuel c tat d
      (nextWindowStart_working hv hnx) ht h

/-- Witness for C10 (Scenario A): 2 working hours from Friday 17:00 land on
Monday 10:00, a working instant of the Monday-to-Friday calendar. -/
theorem C10_witness : isWorkingInstant exCal ⟨⟨2024, 9, 9⟩, 600⟩ = true :=
  C10_deadline_is_working exCal ⟨⟨2024, 9, 6⟩, 1020⟩ 120 400 ⟨⟨2024, 9, 9⟩, 600⟩
    (by decide) (by decide) (by decide)

/-! ## C9: ticket-id generation -/

theorem digitChar_isDigit {m : Nat} (h : m < 10) : (digitChar m).isDigit = true := by
  interval_cases m <;> decide

theorem digitChar_toNat {m : Nat} (h : m < 10) : (digitChar m).toNat = 48 + m := by
  interval_cases m <;> decide

theorem natDigitsAux_irrel : ∀ (f g n : Nat), n < f → n < g →
    natDigitsAux f n = natDigitsAux g n := by
  intro f
  induction f with
  | zero => intro g n hf; omega
  | succ f ih =>
    intro g n hf hg
    cases g with
    | zero => omega
    | succ g =>
      rw [natDigitsAux, natDigitsAux]
      split
      · rfl
      · rw [ih g (n / 10) (by omega) (by omega)]

theorem natDigits_lt10 {n : Nat} (h : n < 10) : natDigits n = [digitChar n] := by
  simp [natDigits, natDigitsAux, h]

theorem natDigits_ge10 {n : Nat} (h : 10 ≤ n) :
    natDigits n = natDigits (n / 10) ++ [digitChar (n % 10)] := by
  rw [natDigits, natDigits, natDigitsAux]
  rw [if_neg (by omega)]
  rw [natDigitsAux_irrel n (n / 10 + 1) (n / 10) (by omega) (by omega)]

theorem digitsVal_snoc (l : List Char) (c : Char) :
    digitsVal (l ++ [c]) = digitsVal l * 10 + (c.toNat - 48) := by
  unfold digitsVal
  rw [List.foldl_append]
  rfl

theorem digitsVal_natDigits : ∀ n : Nat, digitsVal (natDigits n) = n := by
  intro n
  induction n using Nat.strong_induction_on with
  | _ n ih =>
    by_cases h : n < 10
    · rw [natDigits_lt10 h]
      show 0 * 10 + ((digitChar n).toNat - 48) = n
      rw [digitChar_toNat h]
      omega
    · rw [natDigits_ge10 (by omega), digitsVal_snoc,
        ih (n / 10) (by omega), digitChar_toNat (by omega)]
      omega

theorem digitsVal_zeros (k : Nat) (l : List Char) :
    digitsVal (List.replicate k '0' ++ l) = digitsVal l := by
  induction k with
  | zero => rfl
  | succ k ih =>
    rw [List.replicate_succ, List.cons_append]
    show digitsVal (List.replicate k '0' ++ l) = digitsVal l
    exact ih

theorem digitsVal_zfill (w : Nat) (l : List Char) :
    digitsVal (zfill w l) = digitsVal l :=
  digitsVal_zeros _ l

theorem zfill_length_ge (w : Nat) (l : List Char) : w ≤ (zfill w l).length := by
  simp [zfill]
  omega

theorem natDigits_all_isDigit : ∀ n : Nat, (natDigits n).all Char.isDigit = true := by
  intro n
  induction n using Nat.strong_induction_on with
  | _ n ih =>
    by_cases h : n < 10
    · rw [natDigits_lt10 h]
      simp [digitChar_isDigit h]
    · rw [natDigits_ge10 (by omega)]
      simp only [List.all_append]
      rw [ih (n / 10) (by omega)]
      simp [digitChar_isDigit (show n % 10 < 10 by omega)]

theorem zfill_all_isDigit {l : List Char} (w : Nat)
    (h : l.all Char.isDigit = true) : (zfill w l).all Char.isDigit = true := by
  unfold zfill
  simp only [List.all_append, h, Bool.and_true]
  rw [List.all_eq_true]
  intro c hc
  rw [List.eq_of_mem_replicate hc]
  decide

theorem mkTicketId_inj (p : List Char) {s1 s2 : Nat}
    (h : mkTicketId p s1 = mkTicketId p s2) : s1 = s2 := by
  unfold mkTicketId at h
  have hdata : p ++ zfill 3 (natDigits s1) = p ++ zfill 3 (natDigits s2) := by
    exact congrArg String.data h
  have hz := List.append_cancel_left hdata
  have := congrArg digitsVal hz
  rw [digitsVal_zfill, digitsVal_zfill, digitsVal_natDigits, digitsVal_natDigits] at this
  exact this

theorem bumpUntilFree_ge (existing : List String) (p : List Char) :
    ∀ (fuel seq : Nat), seq ≤ bumpUntilFree existing p seq fuel := by
  intro fuel
  induction fuel with
  | zero => intro seq; exact le_refl _
  | succ f ih =>
    intro seq
    rw [bumpUntilFree]
    split
    · exact le_trans (by omega) (ih (seq + 1))
    · exact le_refl _

theorem bumpUntilFree_free (existing : List String) (p : List Char) :
    ∀ (fuel seq : Nat),
      (∃ i, i < fuel ∧ mkTicketId p (seq + i) ∉ existing) →
      mkTicketId p (bumpUntilFree existing p seq fuel) ∉ existing := by
  intro fuel
  induction fuel with
  | zero =>
    rintro seq ⟨i, hi, _⟩
    omega
  | succ f ih =>
    rintro seq ⟨i, hi, hfree⟩
    rw [bumpUntilFree]
    split
    · next hcont =>
      simp at hcont
      apply ih
      cases i with
      | zero => exact absurd hcont (by simpa using hfree)
      | succ j =>
        refine ⟨j, by omega, ?_⟩
        have harith : seq + 1 + j = seq + (j + 1) := by omega
        rw [harith]
        exact hfree
    · next hcont =>
      simp at hcont
      exact hcont

theorem exists_free_seq (existing : List String) (p : List Char) (seq : Nat) :
    ∃ i, i < existing.length + 1 ∧ mkTicketId p (seq + i) ∉ existing := by
  by_contra hall
  push_neg at hall
  have hinj : Function.Injective
      (fun i : Fin (existing.length + 1) => mkTicketId p (seq + i.val)) := by
    intro a b hab
    have := mkTicketId_inj p hab
    exact Fin.ext (by omega)
  have hmap : ∀ i ∈ (Finset.univ : Finset (Fin (existing.length + 1))),
      mkTicketId p (seq + i.val) ∈ existing.toFinset := by
    intro i _
    rw [List.mem_toFinset]
    exact hall i.val i.isLt
  have hcard := Finset.card_le_card_of_injOn
    (fun i : Fin (existing.length + 1) => mkTicketId p (seq + i.val))
    hmap hinj.injOn
  rw [Finset.card_univ, Fintype.card_fin] at hcard
  have hle := List.toFinset_card_le existing
  omega

theorem startsWithChars_append (p rest : List Char) :
    startsWithChars p (p ++ rest) = true := by
  induction p with
  | nil => cases rest <;> rfl
  | cons c cs ih => simp [startsWithChars, ih]

/-- `generate_ticket_id`, unfolded once. -/
theorem generate_ticket_id_eq (today : Date) (existing : List String) :
    generate_ticket_id today existing =
      mkTicketId (dayPfx today)
        (bumpUntilFree existing (dayPfx today)
          (match maxString (existing.filter
              (fun s => startsWithChars (dayPfx today) s.data)) with
            | some last =>
              (match parseSeq (lastDashComp last.data) with
                | some n => n + 1
                | none => 1)
            | none => 1)
          (existing.length + 1)) := rfl

/-- C9 (amended): the generated ticket id is the day-scoped `TKT-YYYYMMDD-`
prelude followed by a zero-padded decimal sequence of at least 3 digits (a
sequence past 999 widens the field, so "exactly 3 digits" fails — see the
counterexample); the sequence starts at 001 when no ticket exists for the
day, otherwise it increments the sequence parsed from the lexicographically
last ticket id of the day, bumping further past any collision; the result is
unique among all existing ticket ids. -/
theorem C9_ticket_id (today : Date) (existing : List String) :
    generate_ticket_id today existing ∉ existing ∧
    (∃ seq, 1 ≤ seq ∧
      generate_ticket_id today existing = mkTicketId (dayPfx today) seq ∧
      3 ≤ (zfill 3 (natDigits seq)).length ∧
      (zfill 3 (natDigits seq)).all Char.isDigit = true) ∧
    startsWithChars (dayPfx today) (generate_ticket_id today existing).data
      = true ∧
    (existing.filter (fun s => startsWithChars (dayPfx today) s.data) = [] →
      generate_ticket_id today existing = mkTicketId (dayPfx today) 1) ∧
    (∀ last n,
      maxString (existing.filter
        (fun s => startsWithChars (dayPfx today) s.data)) = some last →
      parseSeq (lastDashComp last.data) = some n →
      mkTicketId (dayPfx today) (n + 1) ∉ existing →
      generate_ticket_id today existing = mkTicketId (dayPfx today) (n + 1)) := by
  refine ⟨?_, ?_, ?_, ?_, ?_⟩
  · rw [generate_ticket_id_eq]
    apply bumpUntilFree_free
    obtain ⟨i, hi, hfree⟩ := exists_free_seq existing (dayPfx today) _
    exact ⟨i, hi, hfree⟩
  · refine ⟨bumpUntilFree existing (dayPfx today) _ (existing.length + 1),
      ?_, generate_ticket_id_eq today existing, zfill_length_ge 3 _,
      zfill_all_isDigit 3 (natDigits_all_isDigit _)⟩
    refine le_trans ?_ (bumpUntilFree_ge existing (dayPfx today) _ _)
    cases hm : maxString (existing.filter
        (fun s => startsWithChars (dayPfx today) s.data)) with
    | none => simp [hm]
    | some last =>
      cases hp : parseSeq (lastDashComp last.data) with
      | none => simp [hm, hp]
      | some n => simp [hm, hp]
  · rw [generate_ticket_id_eq]
    exact startsWithChars_append _ _
  · intro he
    have hfree1 : mkTicketId (dayPfx today) 1 ∉ existing := by
      intro hmem
      have hmemf : mkTicketId (dayPfx today) 1 ∈ existing.filter
          (fun s => startsWithChars (dayPfx today) s.data) := by
        rw [List.mem_filter]
        exact ⟨hmem, startsWithChars_append _ _⟩
      rw [he] at hmemf
      simp at hmemf
    have hcont : existing.contains (mkTicketId (dayPfx today) 1) = false := by
      simp [hfree1]
    rw [generate_ticket_id_eq]
    simp only [he, maxString, List.foldl_nil]
    rw [bumpUntilFree]
    simp [hfree1]
  · intro last n hm hp hfree
    have hcont : existing.contains (mkTicketId (dayPfx today) (n + 1)) = false := by
      simp [hfree]
    rw [generate_ticket_id_eq]
    simp only [hm, hp]
    rw [bumpUntilFree]
    simp [hfree]

/-- Witness for C9: with one existing ticket today the generated id is fresh,
and with none the sequence starts at 001. -/
theorem C9_witness :
    generate_ticket_id ⟨2026, 1, 1⟩ ["TKT-20260101-001"] ∉ ["TKT-20260101-001"] ∧
    generate_ticket_id ⟨2026, 1, 1⟩ [] = mkTicketId (dayPfx ⟨2026, 1, 1⟩) 1 :=
  ⟨(C9_ticket_id ⟨2026, 1, 1⟩ ["TKT-20260101-001"]).1,
   (C9_ticket_id ⟨2026, 1, 1⟩ []).2.2.2.1 (by decide)⟩

/-- Counterexample for C9: once a day's sequence reaches 999, the next
generated id has a 4-digit sequence field — `str(1000).zfill(3)` is "1000" —
so the id is not of the claimed `TKT-YYYYMMDD-NNN` 3-digit format. -/
theorem C9_counterexample :
    generate_ticket_id ⟨2026, 1, 1⟩ ["TKT-20260101-999"] = "TKT-20260101-1000" ∧
    (lastDashComp ("TKT-20260101-1000".data)).length = 4 := by
  decide

end ContentApproval
